/-
Verification development for the shokz-sync repository.

We give a shallow embedding of the pure/decision logic of the source files
`shokz_sync/diskutil_utils.py`, `shokz_sync/fatsort_utils.py` and the sync
orchestrator `shokz_sync/cli.py`, and prove the specified properties about
it.  Text is modelled as `List Char`; external collaborators (subprocess
results) are modelled by their observable outcome (exit code, stdout,
stderr); the orchestrator is modelled as a function from collaborator
outcomes to an exit code together with the ordered trace of collaborator
invocations it performs.
-/
import Mathlib

set_option linter.unusedVariables false

namespace ShokzSync

/-! ### Model of Python `str.replace` and the raw-device derivation
(`diskutil_utils.get_raw_device_node`, lines 88-100). -/

/-- Fuel-indexed worker for the model of Python `str.replace`: one unit of
fuel is spent per step, and `s.length` units always suffice
(`pyReplaceFuel_congr`).  Structural recursion on the fuel keeps the
function kernel-computable. -/
def pyReplaceFuel (p r : List Char) : Nat → List Char → List Char
  | 0, s => s
  | _ + 1, [] => []
  | n + 1, c :: t =>
    if p ≠ [] ∧ p <+: c :: t then
      r ++ pyReplaceFuel p r n ((c :: t).drop p.length)
    else
      c :: pyReplaceFuel p r n t

/-- Model of Python `str.replace(p, r)` on `s` (all arguments as character
lists): every non-overlapping occurrence of `p` in `s` is replaced by `r`,
scanning left to right.  (The `p ≠ []` guard only rules out the degenerate
empty pattern, which never occurs in the program.) -/
def pyReplace (p r s : List Char) : List Char :=
  pyReplaceFuel p r s.length s

/-- On the empty string any fuel returns the empty string. -/
theorem pyReplaceFuel_nil (p r : List Char) :
    ∀ k : Nat, pyReplaceFuel p r k [] = [] := by
  intro k
  match k with
  | 0 => rfl
  | Nat.succ k' => rfl

/-- Any fuel of at least `s.length` computes the same result. -/
theorem pyReplaceFuel_congr (p r : List Char) :
    ∀ (n m : Nat) (s : List Char), s.length ≤ n → s.length ≤ m →
      pyReplaceFuel p r n s = pyReplaceFuel p r m s := by
  intro n
  induction n with
  | zero =>
    intro m s hn hm
    have hnil : s = [] := List.eq_nil_of_length_eq_zero (Nat.le_zero.mp hn)
    subst hnil
    rw [pyReplaceFuel_nil, pyReplaceFuel_nil]
  | succ n ihn =>
    intro m s hn hm
    match s with
    | [] => rw [pyReplaceFuel_nil, pyReplaceFuel_nil]
    | c :: t =>
      have hm1 : 1 ≤ m := le_trans (by simp) hm
      obtain ⟨m', rfl⟩ : ∃ m', m = m' + 1 := ⟨m - 1, by omega⟩
      rw [pyReplaceFuel, pyReplaceFuel]
      by_cases hcond : p ≠ [] ∧ p <+: c :: t
      · rw [if_pos hcond, if_pos hcond]
        have hp1 : 1 ≤ p.length := by
          rcases p with _ | _
          · exact absurd rfl hcond.1
          · simp
        have hlen : ((c :: t).drop p.length).length ≤ n := by
          simp only [List.length_drop, List.length_cons]
          simp only [List.length_cons] at hn
          omega
        have hlen' : ((c :: t).drop p.length).length ≤ m' := by
          simp only [List.length_drop, List.length_cons]
          simp only [List.length_cons] at hm
          omega
        rw [ihn m' _ hlen hlen']
      · rw [if_neg hcond, if_neg hcond]
        have hlt : t.length ≤ n := by
          simp only [List.length_cons] at hn
          omega
        have hlt' : t.length ≤ m' := by
          simp only [List.length_cons] at hm
          omega
        rw [ihn m' t hlt hlt']

/-- The buffered disk-node marker `"/dev/disk"` from the source. -/
def diskPat : List Char := "/dev/disk".data

/-- The raw disk-node marker `"/dev/rdisk"` from the source. -/
def rdiskRep : List Char := "/dev/rdisk".data

/-- List-level core of `get_raw_device_node`:
`device_node.replace('/dev/disk', '/dev/rdisk')`. -/
def rawDeviceCore (s : List Char) : List Char :=
  pyReplace diskPat rdiskRep s

/-- Embedding of `diskutil_utils.get_raw_device_node`. -/
def get_raw_device_node (device_node : String) : String :=
  String.mk (rawDeviceCore device_node.data)

/-- Unfolding lemma for `pyReplace` on `[]`. -/
theorem pyReplace_nil (p r : List Char) : pyReplace p r [] = [] := rfl

/-- Unfolding lemma for `pyReplace` when the pattern occurs at the head. -/
theorem pyReplace_eq_pos (p r s : List Char) (h1 : p ≠ []) (h2 : p <+: s) :
    pyReplace p r s = r ++ pyReplace p r (s.drop p.length) := by
  have hp1 : 1 ≤ p.length := by
    rcases p with _ | _
    · exact absurd rfl h1
    · simp
  match s with
  | [] =>
    exfalso
    rcases h2 with ⟨u, hu⟩
    have := congrArg List.length hu
    simp at this
    exact absurd this.1 h1
  | c :: t =>
    show pyReplaceFuel p r (c :: t).length (c :: t) = _
    rw [List.length_cons, pyReplaceFuel, if_pos ⟨h1, h2⟩]
    have hlen : (((c :: t).drop p.length)).length ≤ t.length := by
      simp only [List.length_drop, List.length_cons]
      omega
    rw [pyReplaceFuel_congr p r t.length ((c :: t).drop p.length).length _
      hlen le_rfl]
    rfl

/-- Unfolding lemma for `pyReplace` when the pattern does not occur at the
head. -/
theorem pyReplace_eq_neg (p r : List Char) (c : Char) (t : List Char)
    (h2 : ¬ p <+: c :: t) :
    pyReplace p r (c :: t) = c :: pyReplace p r t := by
  show pyReplaceFuel p r (c :: t).length (c :: t) = _
  rw [List.length_cons, pyReplaceFuel, if_neg (fun h => h2 h.2)]
  rfl

/-- If the pattern does not occur in `s` at all, `pyReplace` is the
identity. -/
theorem pyReplace_fix (p r : List Char) :
    ∀ s : List Char, ¬ p <:+: s → pyReplace p r s = s := by
  intro s
  induction s with
  | nil => intro _; exact pyReplace_nil p r
  | cons c t ih =>
    intro hocc
    have hnp : ¬ p <+: c :: t := fun hp => hocc hp.isInfix
    rw [pyReplace_eq_neg p r c t hnp]
    have : ¬ p <:+: t := fun h => hocc (List.infix_cons_iff.mpr (Or.inr h))
    rw [ih this]

/-- Any occurrence of `p` in `a ++ b` either starts inside `a` (at some
nonempty suffix of `a`) or lies entirely inside `b`. -/
theorem infix_append_split {p : List Char} :
    ∀ a b : List Char, p <:+: a ++ b →
      (∃ a₂, a₂ <:+ a ∧ a₂ ≠ [] ∧ p <+: a₂ ++ b) ∨ p <:+: b := by
  intro a
  induction a with
  | nil => intro b h; exact Or.inr (by simpa using h)
  | cons c a' ih =>
    intro b h
    rcases List.infix_cons_iff.mp h with hp | hin
    · exact Or.inl ⟨c :: a', List.suffix_rfl, List.cons_ne_nil c a', hp⟩
    · rcases ih b hin with ⟨a₂, hsuf, hne, hp⟩ | hb
      · exact Or.inl ⟨a₂, hsuf.trans (List.suffix_cons c a'), hne, hp⟩
      · exact Or.inr hb

/-- No nonempty suffix of `"/dev/rdisk"` is prefix-comparable with
`"/dev/disk"`: checked by computation. -/
theorem rdisk_suffix_no_overlap :
    ∀ a₂ ∈ rdiskRep.tails, a₂ ≠ [] →
      ¬ (a₂ <+: diskPat) ∧ ¬ (diskPat <+: a₂) := by decide

/-- `"/dev/disk"` cannot start at any nonempty suffix of an inserted
`"/dev/rdisk"` block, whatever follows. -/
theorem diskPat_not_prefix_of_rdisk_suffix {a₂ b : List Char}
    (ha : a₂ <:+ rdiskRep) (hne : a₂ ≠ []) : ¬ diskPat <+: a₂ ++ b := by
  intro hp
  have hcomp : a₂ <+: diskPat ∨ diskPat <+: a₂ :=
    List.prefix_or_prefix_of_prefix (List.prefix_append a₂ b) hp
  have hover := rdisk_suffix_no_overlap a₂ ((List.mem_tails _ _).mpr ha) hne
  tauto

/-- No nonempty proper piece `diskPat.drop k` is a prefix of
`"/dev/rdisk"`: checked by computation. -/
theorem diskPat_drop_not_prefix_rdisk :
    ∀ k < diskPat.length, 0 < k → ¬ (diskPat.drop k <+: rdiskRep) := by
  decide

/-- Main invariant, by strong induction on the length of `s`: the output of
the raw-device substitution contains no occurrence of `"/dev/disk"`, and any
proper tail `diskPat.drop k` sitting at the front of the output already sat
at the front of the input. -/
theorem rawCore_aux :
    ∀ (n : Nat) (s : List Char), s.length ≤ n →
      (¬ diskPat <:+: pyReplace diskPat rdiskRep s) ∧
      (∀ k, 0 < k → k < diskPat.length →
        diskPat.drop k <+: pyReplace diskPat rdiskRep s →
        diskPat.drop k <+: s) := by
  intro n
  induction n with
  | zero =>
    intro s hs
    have hnil : s = [] := List.eq_nil_of_length_eq_zero (Nat.le_zero.mp hs)
    subst hnil
    rw [pyReplace_nil]
    constructor
    · intro h
      have : diskPat = [] := by simpa using h
      exact absurd this (by decide)
    · intro k hk1 hk9 hpk
      have : diskPat.drop k = [] := by simpa using hpk
      have := congrArg List.length this
      simp at this
      omega
  | succ n ih =>
    intro s hs
    by_cases hpre : diskPat <+: s
    · -- a replacement happens at the head
      have hne : diskPat ≠ [] := by decide
      rw [pyReplace_eq_pos _ _ _ hne hpre]
      have hlen : diskPat.length ≤ s.length := hpre.length_le
      have hlen9 : diskPat.length = 9 := by decide
      have hdrop : (s.drop diskPat.length).length ≤ n := by
        simp only [List.length_drop]
        omega
      obtain ⟨ih1, ih2⟩ := ih (s.drop diskPat.length) hdrop
      constructor
      · intro hocc
        rcases infix_append_split rdiskRep _ hocc with ⟨a₂, hsuf, hane, hp⟩ | hin
        · exact diskPat_not_prefix_of_rdisk_suffix hsuf hane hp
        · exact ih1 hin
      · intro k hk1 hk9 hpk
        exfalso
        have hcomp : diskPat.drop k <+: rdiskRep ∨ rdiskRep <+: diskPat.drop k :=
          List.prefix_or_prefix_of_prefix hpk (List.prefix_append _ _)
        rcases hcomp with h | h
        · exact diskPat_drop_not_prefix_rdisk k hk9 hk1 h
        · have := h.length_le
          simp only [List.length_drop] at this
          have : (10 : Nat) ≤ 9 - k := by simpa using this
          omega
    · match s with
      | [] =>
        rw [pyReplace_nil]
        constructor
        · intro h
          have : diskPat = [] := by simpa using h
          exact absurd this (by decide)
        · intro k hk1 hk9 hpk
          have : diskPat.drop k = [] := by simpa using hpk
          have := congrArg List.length this
          simp at this
          omega
      | c :: t =>
        rw [pyReplace_eq_neg _ _ _ _ hpre]
        have ht : t.length ≤ n := by
          have := hs
          simp only [List.length_cons] at this
          omega
        obtain ⟨ih1, ih2⟩ := ih t ht
        have hd0 : diskPat = '/' :: diskPat.drop 1 := by decide
        constructor
        · intro hocc
          rcases List.infix_cons_iff.mp hocc with hp | hin
          · rw [hd0] at hp
            obtain ⟨hc, htail⟩ := List.cons_prefix_cons.mp hp
            have := ih2 1 (by decide) (by decide) htail
            exact hpre (by rw [hd0]; exact List.cons_prefix_cons.mpr ⟨hc, this⟩)
          · exact ih1 hin
        · intro k hk1 hk9 hpk
          have hk9' : k < diskPat.length := hk9
          have hklt : k < diskPat.length := hk9
          have hsplit : diskPat.drop k = diskPat[k] :: diskPat.drop (k + 1) :=
            List.drop_eq_getElem_cons hklt
          rw [hsplit] at hpk
          obtain ⟨hc, htail⟩ := List.cons_prefix_cons.mp hpk
          by_cases hk1' : k + 1 < diskPat.length
          · have := ih2 (k + 1) (by omega) hk1' htail
            rw [hsplit, hc]
            exact List.cons_prefix_cons.mpr ⟨rfl, this⟩
          · have hkl : diskPat.length ≤ k + 1 := Nat.le_of_not_lt hk1'
            have hnil : diskPat.drop (k + 1) = [] := List.drop_eq_nil_of_le hkl
            rw [hsplit, hc, hnil]
            exact List.cons_prefix_cons.mpr ⟨rfl, List.nil_prefix⟩

/-- The raw-device substitution leaves no occurrence of `"/dev/disk"` in
its output. -/
theorem rawCore_no_occurrence (s : List Char) :
    ¬ diskPat <:+: rawDeviceCore s :=
  (rawCore_aux s.length s le_rfl).1

/-- List-level idempotence of the raw-device substitution. -/
theorem rawCore_idem (s : List Char) :
    rawDeviceCore (rawDeviceCore s) = rawDeviceCore s :=
  pyReplace_fix _ _ _ (rawCore_no_occurrence s)

/-! ### Spec-modelled first-occurrence substitution and the fatsort
normalization (`fatsort_utils.run_fatsort`, lines 26-34). -/

/-- Modelled from the spec: "replace the first occurrence of the disk-root
prefix with its raw-access prefix", leaving the rest of the string —
including any later occurrences — unchanged.  Only the first occurrence of
`p` is replaced. -/
def replaceFirstSpec (p r : List Char) : List Char → List Char
  | [] => []
  | c :: t =>
    if p ≠ [] ∧ p <+: c :: t then
      r ++ (c :: t).drop p.length
    else
      c :: replaceFirstSpec p r t

/-- The raw-marker substring `"/rdisk"` tested by `run_fatsort`. -/
def rdiskMark : List Char := "/rdisk".data

/-- Embedding of the device-argument normalization at the top of
`fatsort_utils.run_fatsort`: `if '/rdisk' not in device_node:
device_node = device_node.replace('/dev/disk', '/dev/rdisk')`. -/
def fatsortTarget (device_node : List Char) : List Char :=
  if rdiskMark <:+: device_node then device_node
  else pyReplace diskPat rdiskRep device_node

/-- Embedding of the command list built by `run_fatsort`
(`['sudo'] + ['fatsort', '-o', 'a', device_node]`). -/
def fatsortCmd (device_node : List Char) (use_sudo : Bool) : List (List Char) :=
  (if use_sudo then ["sudo".data] else []) ++
    ["fatsort".data, "-o".data, "a".data, fatsortTarget device_node]

/-- If no occurrence of `"/dev/disk"` starts strictly before the marked
one, the substitution rewrites the marked occurrence and continues on the
remainder, leaving the portion in front of it unchanged. -/
theorem rawCore_replaces_every_occurrence :
    ∀ l rr : List Char, ¬ diskPat <:+: l ++ diskPat.take 8 →
      pyReplace diskPat rdiskRep (l ++ diskPat ++ rr) =
        l ++ rdiskRep ++ pyReplace diskPat rdiskRep rr := by
  intro l
  induction l with
  | nil =>
    intro rr hno
    have hpre : diskPat <+: diskPat ++ rr := List.prefix_append _ _
    rw [List.nil_append,
      pyReplace_eq_pos _ _ _ (by decide) hpre, List.drop_left, List.nil_append]
  | cons c l' ih =>
    intro rr hno
    have hlen9 : diskPat.length = 9 := by decide
    have hnp : ¬ diskPat <+: (c :: l') ++ diskPat ++ rr := by
      intro hp
      apply hno
      have heq : diskPat = ((c :: l') ++ diskPat ++ rr).take 9 := by
        have := List.prefix_iff_eq_take.mp hp
        rwa [hlen9] at this
      have hmono : ((c :: l') ++ diskPat ++ rr).take 9 <+:
          ((c :: l') ++ diskPat ++ rr).take ((c :: l').length + 8) := by
        apply List.take_prefix_take_left
        simp only [List.length_cons]
        omega
      have htake : ((c :: l') ++ diskPat ++ rr).take ((c :: l').length + 8) =
          (c :: l') ++ diskPat.take 8 := by
        rw [List.append_assoc, List.take_append_eq_append_take,
          List.take_of_length_le (by omega), Nat.add_sub_cancel_left,
          List.take_append_eq_append_take]
        have h89 : 8 - diskPat.length = 0 := by omega
        rw [h89, List.take_zero, List.append_nil]
      have hfin : diskPat <+: (c :: l') ++ diskPat.take 8 := by
        have h1 : diskPat <+:
            ((c :: l') ++ diskPat ++ rr).take ((c :: l').length + 8) := by
          nth_rewrite 1 [heq]
          exact hmono
        rwa [htake] at h1
      exact hfin.isInfix
    rw [List.cons_append, List.cons_append,
      pyReplace_eq_neg _ _ _ _ (by simpa using hnp)]
    have hno' : ¬ diskPat <:+: l' ++ diskPat.take 8 := by
      intro h
      exact hno (List.infix_cons_iff.mpr (Or.inr (by simpa using h)))
    rw [show l' ++ diskPat ++ rr = (l' ++ diskPat) ++ rr by simp,
      show (l' ++ diskPat) ++ rr = l' ++ diskPat ++ rr by simp]
    rw [ih rr hno', List.cons_append, List.cons_append]

/-- C4: raw-device derivation is idempotent: applying
`get_raw_device_node` twice gives the same result as applying it once; in
particular applying it to an already-raw node is a no-op. -/
theorem claim_C4_raw_derivation_idempotent (x : String) :
    get_raw_device_node (get_raw_device_node x) = get_raw_device_node x := by
  show String.mk (rawDeviceCore (String.mk (rawDeviceCore x.data)).data) = _
  rw [show (String.mk (rawDeviceCore x.data)).data = rawDeviceCore x.data
    from rfl]
  rw [rawCore_idem]
  rfl

/-- C5 counterexample: on an input with two occurrences of `"/dev/disk"`,
`get_raw_device_node` (Python `str.replace`, which replaces every
occurrence) differs from the claimed first-occurrence-only substitution. -/
theorem claim_C5_counterexample :
    ¬ (get_raw_device_node "/dev/disk1/dev/disk2" =
        String.mk (replaceFirstSpec diskPat rdiskRep
          "/dev/disk1/dev/disk2".data)) := by
  decide

/-- C5 (amended): raw-device derivation replaces every (left-to-right,
non-overlapping) occurrence of `"/dev/disk"` with `"/dev/rdisk"` — not only
the first — as a pure string substitution: whenever no occurrence starts
before the marked one, the marked occurrence becomes `"/dev/rdisk"`, the
text before it is unchanged, and substitution continues on the text after
it. -/
theorem claim_C5_amended (l rr : List Char)
    (hno : ¬ diskPat <:+: l ++ diskPat.take 8) :
    pyReplace diskPat rdiskRep (l ++ diskPat ++ rr) =
      l ++ rdiskRep ++ pyReplace diskPat rdiskRep rr :=
  rawCore_replaces_every_occurrence l rr hno

/-- Witness for the amended C5 at a concrete input with a second, later
occurrence of the pattern. -/
theorem claim_C5_amended_witness :
    (¬ diskPat <:+: "/x".data ++ diskPat.take 8) ∧
      pyReplace diskPat rdiskRep ("/x".data ++ diskPat ++ "1/dev/disk2".data) =
        "/x".data ++ rdiskRep ++ pyReplace diskPat rdiskRep "1/dev/disk2".data :=
  ⟨by decide, claim_C5_amended "/x".data "1/dev/disk2".data (by decide)⟩

/-- C9: when `run_fatsort` is handed a buffered node (one with no
`"/rdisk"` marker), it normalizes it with the raw-device substitution
before building the command, and the target placed in the command contains
no buffered `"/dev/disk"` marker. -/
theorem claim_C9_fatsort_normalizes (device_node : List Char)
    (use_sudo : Bool) (h : ¬ rdiskMark <:+: device_node) :
    fatsortTarget device_node = rawDeviceCore device_node ∧
      (fatsortCmd device_node use_sudo).getLast? =
        some (fatsortTarget device_node) ∧
      ¬ diskPat <:+: fatsortTarget device_node := by
  have htgt : fatsortTarget device_node = rawDeviceCore device_node := by
    rw [fatsortTarget, if_neg h]
    rfl
  refine ⟨htgt, ?_, ?_⟩
  · cases use_sudo <;> rfl
  · rw [htgt]
    exact rawCore_no_occurrence device_node

/-- Witness for C9 at the concrete buffered node `"/dev/disk4s1"`. -/
theorem claim_C9_fatsort_normalizes_witness :
    (¬ rdiskMark <:+: "/dev/disk4s1".data) ∧
      (fatsortTarget "/dev/disk4s1".data = rawDeviceCore "/dev/disk4s1".data ∧
        (fatsortCmd "/dev/disk4s1".data true).getLast? =
          some (fatsortTarget "/dev/disk4s1".data) ∧
        ¬ diskPat <:+: fatsortTarget "/dev/disk4s1".data) :=
  ⟨by decide, claim_C9_fatsort_normalizes "/dev/disk4s1".data true (by decide)⟩

/-! ### Model of the diskutil text handling
(`diskutil_utils.py`: `run_command`, `get_mount_info`, `get_device_node`,
`unmount_volume`, `mount_volume`). -/

/-- Observable outcome of one external process invocation. -/
structure ProcResult where
  exitCode : Nat
  stdout : List Char
  stderr : List Char

/-- Python `str.lower()` on the (ASCII) texts involved. -/
def pyLower (s : List Char) : List Char := s.map Char.toLower

/-- Error message built by `run_command` on a non-zero exit:
`f"Command failed: {' '.join(cmd)}\n{e.stderr}"`. -/
def cmdFailedMsg (cmdText stderr : List Char) : List Char :=
  "Command failed: ".data ++ cmdText ++ "\n".data ++ stderr

/-- Embedding of the `try` block of `unmount_volume`: `run_command` with
`check=True`, then the textual confirmation check on stdout. -/
def unmountInner (mp : List Char) (res : ProcResult) :
    Except (List Char) Unit :=
  if res.exitCode ≠ 0 then
    .error (cmdFailedMsg ("diskutil unmount ".data ++ mp) res.stderr)
  else if ¬ "unmounted".data <:+: pyLower res.stdout then
    .error ("Unmount may have failed: ".data ++ res.stdout)
  else
    .ok ()

/-- The actionable resource-busy message raised by `unmount_volume`. -/
def busyMsg (mp : List Char) : List Char :=
  "Cannot unmount ".data ++ mp ++
    " - resource is busy.\nClose any Finder windows or apps accessing the volume and try again.".data

/-- Embedding of `diskutil_utils.unmount_volume` (lines 103-123). -/
def unmount_volume (mp : List Char) (res : ProcResult) :
    Except (List Char) Unit :=
  match unmountInner mp res with
  | .ok _ => .ok ()
  | .error e =>
    if "Resource busy".data <:+: e ∨ "busy".data <:+: pyLower e then
      .error (busyMsg mp)
    else
      .error e

/-- Embedding of `diskutil_utils.mount_volume` (lines 126-138). -/
def mount_volume (device_node : List Char) (res : ProcResult) :
    Except (List Char) Unit :=
  if res.exitCode ≠ 0 then
    .error (cmdFailedMsg ("diskutil mount ".data ++ device_node) res.stderr)
  else if ¬ "mounted".data <:+: pyLower res.stdout then
    .error ("Mount may have failed: ".data ++ res.stdout)
  else
    .ok ()

/-- The text in which the underlying tool reports an error: stderr when the
tool exits non-zero, its stdout otherwise. -/
def toolReportText (res : ProcResult) : List Char :=
  if res.exitCode = 0 then res.stdout else res.stderr

/-- Python `str.strip()` on a line of diskutil output. -/
def stripChars (l : List Char) : List Char :=
  ((l.dropWhile Char.isWhitespace).reverse.dropWhile Char.isWhitespace).reverse

/-- Embedding of the parsing loop of `get_mount_info` (lines 53-58): each
stripped line containing a colon is split once on the first colon into a
trimmed key/value pair; other lines are ignored; later bindings of a key
overwrite earlier ones (Python dict assignment). -/
def parseStep (acc : List (List Char × List Char)) (line : List Char) :
    List (List Char × List Char) :=
  let l := stripChars line
  if ':' ∈ l then
    acc ++ [(stripChars (l.takeWhile (fun c => c != ':')),
             stripChars ((l.dropWhile (fun c => c != ':')).drop 1))]
  else acc

/-- The key/value pairs parsed from the diskutil info output lines. -/
def parseInfo (lines : List (List Char)) : List (List Char × List Char) :=
  lines.foldl parseStep []

/-- Python `dict.get`: the last binding of the key wins. -/
def dictGet (k : List Char) (assoc : List (List Char × List Char)) :
    Option (List Char) :=
  assoc.reverse.lookup k

/-- Embedding of `get_mount_info` (lines 38-63); the stdout of
`diskutil info` is modelled by its list of lines. -/
def get_mount_info (mp : List Char) (exitCode : Nat)
    (lines : List (List Char)) (stderr : List Char) :
    Except (List Char) (List (List Char × List Char)) :=
  if exitCode ≠ 0 then
    .error (cmdFailedMsg ("diskutil info ".data ++ mp) stderr)
  else if parseInfo lines = [] then
    .error ("Could not get info for mountpoint: ".data ++ mp)
  else
    .ok (parseInfo lines)

/-- Embedding of `get_device_node` (lines 66-85). -/
def get_device_node (mp : List Char) (exitCode : Nat)
    (lines : List (List Char)) (stderr : List Char) :
    Except (List Char) (List Char) :=
  match get_mount_info mp exitCode lines stderr with
  | .error e => .error e
  | .ok info =>
    match dictGet "Device Node".data info with
    | none => .error ("Could not determine device node for ".data ++ mp)
    | some v =>
      if v = [] then
        .error ("Could not determine device node for ".data ++ mp)
      else
        .ok v

/-! ### Claims about the diskutil boundary (C6, C7, C8, C10). -/

/-- An occurrence inside `b` is an occurrence inside the lowering of
`a ++ b`. -/
theorem infix_pyLower_append_right {x a b : List Char}
    (h : x <:+: pyLower b) : x <:+: pyLower (a ++ b) := by
  rw [pyLower, List.map_append]
  exact h.trans (List.suffix_append _ _).isInfix

/-- Reduction of `unmount_volume` when the inner body succeeds. -/
theorem unmount_volume_inner_ok (mp : List Char) (res : ProcResult)
    (hinner : unmountInner mp res = .ok ()) :
    unmount_volume mp res = .ok () := by
  unfold unmount_volume
  rw [hinner]

/-- Reduction of `unmount_volume` when the inner body fails: the raised
message goes through the busy test. -/
theorem unmount_volume_inner_error (mp : List Char) (res : ProcResult)
    (e : List Char) (hinner : unmountInner mp res = .error e) :
    unmount_volume mp res =
      if "Resource busy".data <:+: e ∨ "busy".data <:+: pyLower e then
        .error (busyMsg mp)
      else
        .error e := by
  unfold unmount_volume
  rw [hinner]

/-- `unmount_volume` succeeds exactly when its inner body does. -/
theorem unmount_volume_ok_iff (mp : List Char) (res : ProcResult) :
    unmount_volume mp res = .ok () ↔ unmountInner mp res = .ok () := by
  cases hinner : unmountInner mp res with
  | ok u =>
    cases u
    simp [unmount_volume_inner_ok mp res hinner]
  | error e =>
    rw [unmount_volume_inner_error mp res e hinner]
    constructor
    · intro h
      split at h <;> exact absurd h (by simp)
    · intro h
      exact absurd h (by simp)

/-- The inner body of `unmount_volume` succeeds exactly on a zero exit with
the textual confirmation. -/
theorem unmountInner_ok_iff (mp : List Char) (res : ProcResult) :
    unmountInner mp res = .ok () ↔
      res.exitCode = 0 ∧ "unmounted".data <:+: pyLower res.stdout := by
  unfold unmountInner
  by_cases h0 : res.exitCode = 0 <;>
    by_cases hc : "unmounted".data <:+: pyLower res.stdout <;>
    simp [h0, hc]

/-- C7: `unmount_volume` succeeds iff the collaborator exits zero and its
output contains "unmounted" (case-insensitively), and `mount_volume`
succeeds iff the collaborator exits zero and its output contains "mounted"
(case-insensitively); a zero exit without the confirmation text is an
error. -/
theorem claim_C7_success_iff_confirmation (mp device_node : List Char)
    (res : ProcResult) :
    (unmount_volume mp res = .ok () ↔
      res.exitCode = 0 ∧ "unmounted".data <:+: pyLower res.stdout) ∧
    (mount_volume device_node res = .ok () ↔
      res.exitCode = 0 ∧ "mounted".data <:+: pyLower res.stdout) := by
  constructor
  · rw [unmount_volume_ok_iff]
    exact unmountInner_ok_iff mp res
  · unfold mount_volume
    by_cases h0 : res.exitCode = 0 <;>
      by_cases hc : "mounted".data <:+: pyLower res.stdout <;>
      simp [h0, hc]

/-- C6: when unmounting fails and the tool's reported error text contains
"busy" (case-insensitively), `unmount_volume` raises the dedicated busy
message, while any failure on which the source's busy test is negative
raises the original message, which is never equal to the busy message. -/
theorem claim_C6_busy_error_distinguishable (mp : List Char)
    (res : ProcResult)
    (hfail : ¬ (res.exitCode = 0 ∧
      "unmounted".data <:+: pyLower res.stdout)) :
    ("busy".data <:+: pyLower (toolReportText res) →
      unmount_volume mp res = .error (busyMsg mp)) ∧
    (∀ e, unmountInner mp res = .error e →
      ¬ ("Resource busy".data <:+: e ∨ "busy".data <:+: pyLower e) →
      unmount_volume mp res = .error e ∧ e ≠ busyMsg mp) := by
  constructor
  · intro hbusy
    by_cases h0 : res.exitCode = 0
    · have hc : ¬ "unmounted".data <:+: pyLower res.stdout :=
        fun hc => hfail ⟨h0, hc⟩
      have hinner : unmountInner mp res =
          .error ("Unmount may have failed: ".data ++ res.stdout) := by
        simp [unmountInner, h0, hc]
      have hbusy' : "busy".data <:+: pyLower res.stdout := by
        simpa [toolReportText, h0] using hbusy
      have hlift : "busy".data <:+:
          pyLower ("Unmount may have failed: ".data ++ res.stdout) :=
        infix_pyLower_append_right hbusy'
      rw [unmount_volume_inner_error mp res _ hinner,
        if_pos (Or.inr hlift)]
    · have hinner : unmountInner mp res =
          .error (cmdFailedMsg ("diskutil unmount ".data ++ mp)
            res.stderr) := by
        simp [unmountInner, h0]
      have hbusy' : "busy".data <:+: pyLower res.stderr := by
        simpa [toolReportText, h0] using hbusy
      have hlift : "busy".data <:+:
          pyLower (cmdFailedMsg ("diskutil unmount ".data ++ mp)
            res.stderr) := by
        unfold cmdFailedMsg
        exact infix_pyLower_append_right hbusy'
      rw [unmount_volume_inner_error mp res _ hinner,
        if_pos (Or.inr hlift)]
  · intro e hinner hnb
    have hres : unmount_volume mp res = .error e := by
      rw [unmount_volume_inner_error mp res e hinner, if_neg hnb]
    refine ⟨hres, ?_⟩
    intro heq
    apply hnb
    right
    rw [heq]
    have h1 : "busy".data <:+: pyLower
        " - resource is busy.\nClose any Finder windows or apps accessing the volume and try again.".data := by
      decide
    unfold busyMsg
    exact infix_pyLower_append_right h1

/-- Witness for C6: a busy-reporting failure at a concrete input produces
exactly the dedicated busy message. -/
theorem claim_C6_witness :
    unmount_volume "/Volumes/XTRAINERZ".data
        ⟨1, [], "Resource busy".data⟩ =
      .error (busyMsg "/Volumes/XTRAINERZ".data) :=
  (claim_C6_busy_error_distinguishable "/Volumes/XTRAINERZ".data
    ⟨1, [], "Resource busy".data⟩ (by decide)).1 (by decide)

/-- If no line of the output bears a colon, the parsed mapping is empty. -/
theorem parseInfo_eq_nil (lines : List (List Char))
    (h : ∀ l ∈ lines, ':' ∉ stripChars l) : parseInfo lines = [] := by
  unfold parseInfo
  suffices hgen : ∀ acc, List.foldl parseStep acc lines = acc from hgen []
  induction lines with
  | nil => intro acc; rfl
  | cons l ls ih =>
    intro acc
    have hl : ':' ∉ stripChars l := h l (by simp)
    have hstep : parseStep acc l = acc := by
      unfold parseStep
      simp [hl]
    rw [List.foldl_cons, hstep]
    exact ih (fun l' hl' => h l' (by simp [hl'])) acc

/-- Reduction of `get_device_node` when looking up the device info
fails. -/
theorem get_device_node_info_error (mp : List Char) (exitCode : Nat)
    (lines : List (List Char)) (stderr e : List Char)
    (h : get_mount_info mp exitCode lines stderr = .error e) :
    get_device_node mp exitCode lines stderr = .error e := by
  unfold get_device_node
  rw [h]

/-- Reduction of `get_device_node` when the device info parses: the result
is determined by the `Device Node` entry of the parsed mapping. -/
theorem get_device_node_info_ok (mp : List Char) (exitCode : Nat)
    (lines : List (List Char)) (stderr : List Char)
    (info : List (List Char × List Char))
    (h : get_mount_info mp exitCode lines stderr = .ok info) :
    get_device_node mp exitCode lines stderr =
      match dictGet "Device Node".data info with
      | none => .error ("Could not determine device node for ".data ++ mp)
      | some v =>
        if v = [] then
          .error ("Could not determine device node for ".data ++ mp)
        else
          .ok v := by
  unfold get_device_node
  rw [h]

/-- C8: device resolution fails when the output has no colon-bearing lines,
or when the parsed mapping omits the `Device Node` key or binds it to the
empty string; it never returns an empty device node. -/
theorem claim_C8_resolution_errors (mp stderr : List Char) (exitCode : Nat)
    (lines : List (List Char)) :
    ((∀ l ∈ lines, ':' ∉ stripChars l) →
      ∃ e, get_device_node mp exitCode lines stderr = .error e) ∧
    ((dictGet "Device Node".data (parseInfo lines) = none ∨
        dictGet "Device Node".data (parseInfo lines) = some []) →
      ∃ e, get_device_node mp exitCode lines stderr = .error e) ∧
    (∀ v, get_device_node mp exitCode lines stderr = .ok v → v ≠ []) := by
  by_cases h0 : exitCode = 0
  · by_cases hnil : parseInfo lines = []
    · have hmi : get_mount_info mp exitCode lines stderr =
          .error ("Could not get info for mountpoint: ".data ++ mp) := by
        simp [get_mount_info, h0, hnil]
      have hgd := get_device_node_info_error mp exitCode lines stderr _ hmi
      refine ⟨fun _ => ⟨_, hgd⟩, fun _ => ⟨_, hgd⟩, fun v hv => ?_⟩
      rw [hgd] at hv
      exact absurd hv (by simp)
    · have hmi : get_mount_info mp exitCode lines stderr =
          .ok (parseInfo lines) := by
        simp [get_mount_info, h0, hnil]
      have hgd := get_device_node_info_ok mp exitCode lines stderr _ hmi
      refine ⟨fun hnc => absurd (parseInfo_eq_nil lines hnc) hnil,
        fun hdn => ?_, fun v hv => ?_⟩
      · rcases hdn with hdn | hdn <;> rw [hdn] at hgd <;> simp at hgd <;>
          exact ⟨_, hgd⟩
      · rw [hgd] at hv
        rcases hget : dictGet "Device Node".data (parseInfo lines) with
          _ | w <;> rw [hget] at hv
        · exact absurd hv (by simp)
        · have hv' : (if w = [] then
              (Except.error ("Could not determine device node for ".data ++
                mp) : Except (List Char) (List Char))
            else Except.ok w) = Except.ok v := hv
          by_cases hw : w = []
          · rw [if_pos hw] at hv'
            exact absurd hv' (by simp)
          · rw [if_neg hw] at hv'
            have hwv : w = v := by simpa using hv'
            rw [← hwv]
            exact hw
  · have hmi : get_mount_info mp exitCode lines stderr =
        .error (cmdFailedMsg ("diskutil info ".data ++ mp) stderr) := by
      simp [get_mount_info, h0]
    have hgd := get_device_node_info_error mp exitCode lines stderr _ hmi
    refine ⟨fun _ => ⟨_, hgd⟩, fun _ => ⟨_, hgd⟩, fun v hv => ?_⟩
    rw [hgd] at hv
    exact absurd hv (by simp)

/-- Witness for C8: colon-free output at a concrete input yields a
resolution error. -/
theorem claim_C8_witness :
    ∃ e, get_device_node "/Volumes/XTRAINERZ".data 0
        ["no parseable output".data] [] = .error e :=
  (claim_C8_resolution_errors "/Volumes/XTRAINERZ".data [] 0
    ["no parseable output".data]).1 (by decide)

/-- C10: any collaborator report whose lowercased text contains
"unmounted" also contains "mounted", so `mount_volume` accepts it as a
successful mount and returns without error. -/
theorem claim_C10_mount_accepts_unmounted_report (device_node : List Char)
    (res : ProcResult) (h0 : res.exitCode = 0)
    (h : "unmounted".data <:+: pyLower res.stdout) :
    mount_volume device_node res = .ok () := by
  have hm : "mounted".data <:+: pyLower res.stdout :=
    List.IsInfix.trans (by decide) h
  simp [mount_volume, h0, hm]

/-- Witness for C10 at a concrete "unmounted" report. -/
theorem claim_C10_witness :
    mount_volume "/dev/disk4s1".data
        ⟨0, "Volume XTRAINERZ unmounted".data, []⟩ = .ok () :=
  claim_C10_mount_accepts_unmounted_report "/dev/disk4s1".data
    ⟨0, "Volume XTRAINERZ unmounted".data, []⟩ rfl (by decide)

/-! ### Model of the sync orchestrator (`cli.py`, `sync_shokz`,
lines 170-294).  Collaborator outcomes are an oracle `Env`; the function
returns the exit code together with the ordered trace of collaborator
invocations and failure logs it performs. -/

/-- Failure-log sites of `sync_shokz`. -/
inductive ETag where
  | beetFailed
  | deviceInfoFailed
  | unmountFailed
  | fatsortFailed
  | remountFailed
  deriving DecidableEq

/-- Collaborator invocations performed by `sync_shokz`. -/
inductive Ev where
  | beetImport
  | resolve
  | unmount
  | reorder (target : String)
  | remount (node : String)
  | logErr (tag : ETag)
  deriving DecidableEq

/-- Outcomes of the external collaborators during one sync session:
dependency check, mount check, config verification/creation, beets import,
device-node resolution (with the resolved node `dn`), unmount, fatsort and
remount. -/
structure Env where
  depsOk : Bool
  mounted : Bool
  configValid : Bool
  configCreateOk : Bool
  beetOk : Bool
  resolveOk : Bool
  dn : String
  unmountOk : Bool
  fatsortOk : Bool
  remountOk : Bool

/-- Embedding of the control flow of `sync_shokz`: dependency check, mount
check, config check/creation, beets import, the dry-run early return,
device-node resolution, unmount, fatsort with its best-effort recovery
remount (whose own outcome is ignored), and the final remount. -/
def sync_shokz (dryRun : Bool) (env : Env) : Int × List Ev :=
  if !env.depsOk then (1, [])
  else if !env.mounted then (1, [])
  else if !env.configValid && !env.configCreateOk then (1, [])
  else if !env.beetOk then (1, [Ev.beetImport, Ev.logErr ETag.beetFailed])
  else if dryRun then (0, [Ev.beetImport])
  else if !env.resolveOk then
    (1, [Ev.beetImport, Ev.resolve, Ev.logErr ETag.deviceInfoFailed])
  else if !env.unmountOk then
    (1, [Ev.beetImport, Ev.resolve, Ev.unmount,
         Ev.logErr ETag.unmountFailed])
  else if !env.fatsortOk then
    (1, [Ev.beetImport, Ev.resolve, Ev.unmount,
         Ev.reorder (get_raw_device_node env.dn),
         Ev.logErr ETag.fatsortFailed, Ev.remount env.dn])
  else if !env.remountOk then
    (1, [Ev.beetImport, Ev.resolve, Ev.unmount,
         Ev.reorder (get_raw_device_node env.dn), Ev.remount env.dn,
         Ev.logErr ETag.remountFailed])
  else
    (0, [Ev.beetImport, Ev.resolve, Ev.unmount,
         Ev.reorder (get_raw_device_node env.dn), Ev.remount env.dn])

/-- Recognizer for reorder invocations. -/
def isReorderEv : Ev → Bool
  | Ev.reorder _ => true
  | _ => false

/-- Recognizer for remount invocations. -/
def isRemountEv : Ev → Bool
  | Ev.remount _ => true
  | _ => false

/-- Recognizer for the unmount invocation. -/
def isUnmountEv : Ev → Bool
  | Ev.unmount => true
  | _ => false

/-- Recognizer for the device-node resolution. -/
def isResolveEv : Ev → Bool
  | Ev.resolve => true
  | _ => false

/-- Case analysis of `sync_shokz`: its result is one of eight shapes, and
the three shapes containing a reorder invocation arise only after a
successful unmount. -/
theorem sync_shokz_shape (d : Bool) (env : Env) :
    sync_shokz d env = (1, []) ∨
    sync_shokz d env = (1, [Ev.beetImport, Ev.logErr ETag.beetFailed]) ∨
    sync_shokz d env = (0, [Ev.beetImport]) ∨
    sync_shokz d env =
      (1, [Ev.beetImport, Ev.resolve, Ev.logErr ETag.deviceInfoFailed]) ∨
    sync_shokz d env =
      (1, [Ev.beetImport, Ev.resolve, Ev.unmount,
           Ev.logErr ETag.unmountFailed]) ∨
    (env.unmountOk = true ∧
      (sync_shokz d env =
        (1, [Ev.beetImport, Ev.resolve, Ev.unmount,
             Ev.reorder (get_raw_device_node env.dn),
             Ev.logErr ETag.fatsortFailed, Ev.remount env.dn]) ∨
       sync_shokz d env =
        (1, [Ev.beetImport, Ev.resolve, Ev.unmount,
             Ev.reorder (get_raw_device_node env.dn), Ev.remount env.dn,
             Ev.logErr ETag.remountFailed]) ∨
       sync_shokz d env =
        (0, [Ev.beetImport, Ev.resolve, Ev.unmount,
             Ev.reorder (get_raw_device_node env.dn),
             Ev.remount env.dn]))) := by
  unfold sync_shokz
  by_cases h1 : !env.depsOk
  · rw [if_pos h1]; exact Or.inl rfl
  rw [if_neg h1]
  by_cases h2 : !env.mounted
  · rw [if_pos h2]; exact Or.inl rfl
  rw [if_neg h2]
  by_cases h3 : !env.configValid && !env.configCreateOk
  · rw [if_pos h3]; exact Or.inl rfl
  rw [if_neg h3]
  by_cases h4 : !env.beetOk
  · rw [if_pos h4]; exact Or.inr (Or.inl rfl)
  rw [if_neg h4]
  by_cases h5 : d = true
  · rw [if_pos h5]; exact Or.inr (Or.inr (Or.inl rfl))
  rw [if_neg h5]
  by_cases h6 : !env.resolveOk
  · rw [if_pos h6]; exact Or.inr (Or.inr (Or.inr (Or.inl rfl)))
  rw [if_neg h6]
  by_cases h7 : !env.unmountOk
  · rw [if_pos h7]; exact Or.inr (Or.inr (Or.inr (Or.inr (Or.inl rfl))))
  rw [if_neg h7]
  have hu : env.unmountOk = true := by
    revert h7
    cases env.unmountOk <;> simp
  by_cases h8 : !env.fatsortOk
  · rw [if_pos h8]
    exact Or.inr (Or.inr (Or.inr (Or.inr (Or.inr ⟨hu, Or.inl rfl⟩))))
  rw [if_neg h8]
  by_cases h9 : !env.remountOk
  · rw [if_pos h9]
    exact Or.inr (Or.inr (Or.inr (Or.inr (Or.inr
      ⟨hu, Or.inr (Or.inl rfl)⟩))))
  rw [if_neg h9]
  exact Or.inr (Or.inr (Or.inr (Or.inr (Or.inr
    ⟨hu, Or.inr (Or.inr rfl)⟩))))

/-- C1: in a dry-run session in which the dependency check, mount check,
config step and beets import all succeed, `sync_shokz` returns exit code 0
right after the import, and no device-node resolution, unmount, reorder or
remount is ever invoked. -/
theorem claim_C1_dry_run_stops_after_import (env : Env)
    (hdeps : env.depsOk = true) (hmnt : env.mounted = true)
    (hcfg : env.configValid = true ∨ env.configCreateOk = true)
    (hbeet : env.beetOk = true) :
    (sync_shokz true env).1 = 0 ∧
    Ev.resolve ∉ (sync_shokz true env).2 ∧
    Ev.unmount ∉ (sync_shokz true env).2 ∧
    (∀ s, Ev.reorder s ∉ (sync_shokz true env).2) ∧
    (∀ s, Ev.remount s ∉ (sync_shokz true env).2) := by
  have hrun : sync_shokz true env = (0, [Ev.beetImport]) := by
    unfold sync_shokz
    rcases hcfg with h | h <;> simp [hdeps, hmnt, h, hbeet]
  rw [hrun]
  exact ⟨rfl, by simp, by simp, fun s => by simp, fun s => by simp⟩

/-- Witness for C1 at a concrete all-succeeding environment. -/
theorem claim_C1_witness :
    (Env.mk true true true true true true "/dev/disk4s1" true true
      true).depsOk = true ∧
    ((sync_shokz true
        (Env.mk true true true true true true "/dev/disk4s1" true true
          true)).1 = 0 ∧
      Ev.resolve ∉ (sync_shokz true
        (Env.mk true true true true true true "/dev/disk4s1" true true
          true)).2 ∧
      Ev.unmount ∉ (sync_shokz true
        (Env.mk true true true true true true "/dev/disk4s1" true true
          true)).2 ∧
      (∀ s, Ev.reorder s ∉ (sync_shokz true
        (Env.mk true true true true true true "/dev/disk4s1" true true
          true)).2) ∧
      (∀ s, Ev.remount s ∉ (sync_shokz true
        (Env.mk true true true true true true "/dev/disk4s1" true true
          true)).2)) :=
  ⟨rfl, claim_C1_dry_run_stops_after_import
    (Env.mk true true true true true true "/dev/disk4s1" true true true)
    rfl rfl (Or.inl rfl) rfl⟩

/-- C2: when unmount succeeds and fatsort then fails, `sync_shokz` performs
exactly one remount invocation, with the device node resolved before the
reorder; the run reports exit code 1 with the failure logged against
fatsort; no remount failure is logged (the recovery attempt's outcome is
swallowed — the hypotheses leave `env.remountOk` unconstrained, so the
conclusion holds whether or not the recovery remount succeeds). -/
theorem claim_C2_reorder_failure_recovery (env : Env)
    (hdeps : env.depsOk = true) (hmnt : env.mounted = true)
    (hcfg : env.configValid = true ∨ env.configCreateOk = true)
    (hbeet : env.beetOk = true) (hres : env.resolveOk = true)
    (hunm : env.unmountOk = true) (hfat : env.fatsortOk = false) :
    sync_shokz false env =
      (1, [Ev.beetImport, Ev.resolve, Ev.unmount,
           Ev.reorder (get_raw_device_node env.dn),
           Ev.logErr ETag.fatsortFailed, Ev.remount env.dn]) ∧
    (sync_shokz false env).2.countP isRemountEv = 1 ∧
    Ev.remount env.dn ∈ (sync_shokz false env).2 ∧
    Ev.logErr ETag.remountFailed ∉ (sync_shokz false env).2 ∧
    Ev.logErr ETag.fatsortFailed ∈ (sync_shokz false env).2 ∧
    (sync_shokz false env).1 = 1 := by
  have hrun : sync_shokz false env =
      (1, [Ev.beetImport, Ev.resolve, Ev.unmount,
           Ev.reorder (get_raw_device_node env.dn),
           Ev.logErr ETag.fatsortFailed, Ev.remount env.dn]) := by
    unfold sync_shokz
    rcases hcfg with h | h <;>
      simp [hdeps, hmnt, h, hbeet, hres, hunm, hfat]
  refine ⟨hrun, ?_, ?_, ?_, ?_, ?_⟩ <;> rw [hrun] <;>
    simp [isRemountEv, List.countP_cons]

/-- Witness for C2 at a concrete environment in which the recovery remount
itself fails. -/
theorem claim_C2_witness :
    sync_shokz false
        (Env.mk true true true true true true "/dev/disk4s1" true false
          false) =
      (1, [Ev.beetImport, Ev.resolve, Ev.unmount,
           Ev.reorder (get_raw_device_node "/dev/disk4s1"),
           Ev.logErr ETag.fatsortFailed, Ev.remount "/dev/disk4s1"]) ∧
    (sync_shokz false
        (Env.mk true true true true true true "/dev/disk4s1" true false
          false)).2.countP isRemountEv = 1 ∧
    Ev.remount "/dev/disk4s1" ∈ (sync_shokz false
        (Env.mk true true true true true true "/dev/disk4s1" true false
          false)).2 ∧
    Ev.logErr ETag.remountFailed ∉ (sync_shokz false
        (Env.mk true true true true true true "/dev/disk4s1" true false
          false)).2 ∧
    Ev.logErr ETag.fatsortFailed ∈ (sync_shokz false
        (Env.mk true true true true true true "/dev/disk4s1" true false
          false)).2 ∧
    (sync_shokz false
        (Env.mk true true true true true true "/dev/disk4s1" true false
          false)).1 = 1 :=
  claim_C2_reorder_failure_recovery
    (Env.mk true true true true true true "/dev/disk4s1" true false false)
    rfl rfl (Or.inl rfl) rfl rfl rfl rfl

/-- C3: in every sync run, a reorder invocation occurs only after the
unmount invocation, and only when the unmount succeeded; the import never
occurs after the unmount; and device-node resolution happens at most once
over the run, and exactly once — before the unmount — whenever the unmount
is invoked. -/
theorem claim_C3_ordering_invariant (dryRun : Bool) (env : Env) :
    ((sync_shokz dryRun env).2.countP isReorderEv ≠ 0 →
      env.unmountOk = true ∧
      Ev.unmount ∈ (sync_shokz dryRun env).2.takeWhile
        (fun e => !isReorderEv e)) ∧
    (Ev.beetImport ∉
      (((sync_shokz dryRun env).2.dropWhile
        (fun e => !isUnmountEv e)).drop 1)) ∧
    ((sync_shokz dryRun env).2.countP isResolveEv ≤ 1) ∧
    (Ev.unmount ∈ (sync_shokz dryRun env).2 →
      (sync_shokz dryRun env).2.countP isResolveEv = 1 ∧
      Ev.resolve ∈ (sync_shokz dryRun env).2.takeWhile
        (fun e => !isUnmountEv e)) := by
  rcases sync_shokz_shape dryRun env with
    h | h | h | h | h | ⟨hu, h | h | h⟩ <;> rw [h]
  · exact ⟨fun hc => absurd rfl hc, by decide, by decide,
      fun hm => absurd hm (by decide)⟩
  · exact ⟨fun hc => absurd rfl hc, by decide, by decide,
      fun hm => absurd hm (by decide)⟩
  · exact ⟨fun hc => absurd rfl hc, by decide, by decide,
      fun hm => absurd hm (by decide)⟩
  · exact ⟨fun hc => absurd rfl hc, by decide, by decide,
      fun hm => absurd hm (by decide)⟩
  · exact ⟨fun hc => absurd rfl hc, by decide, by decide,
      fun hm => ⟨by decide, by decide⟩⟩
  · exact ⟨fun hc => ⟨hu, by
        simp [isReorderEv, isUnmountEv, isResolveEv, List.takeWhile_cons,
          List.dropWhile_cons, List.countP_cons]⟩,
      by simp [isReorderEv, isUnmountEv, isResolveEv, List.takeWhile_cons,
          List.dropWhile_cons, List.countP_cons],
      by simp [isReorderEv, isUnmountEv, isResolveEv, List.takeWhile_cons,
          List.dropWhile_cons, List.countP_cons],
      fun hm => ⟨by
        simp [isReorderEv, isUnmountEv, isResolveEv, List.takeWhile_cons,
          List.dropWhile_cons, List.countP_cons], by
        simp [isReorderEv, isUnmountEv, isResolveEv, List.takeWhile_cons,
          List.dropWhile_cons, List.countP_cons]⟩⟩
  · exact ⟨fun hc => ⟨hu, by
        simp [isReorderEv, isUnmountEv, isResolveEv, List.takeWhile_cons,
          List.dropWhile_cons, List.countP_cons]⟩,
      by simp [isReorderEv, isUnmountEv, isResolveEv, List.takeWhile_cons,
          List.dropWhile_cons, List.countP_cons],
      by simp [isReorderEv, isUnmountEv, isResolveEv, List.takeWhile_cons,
          List.dropWhile_cons, List.countP_cons],
      fun hm => ⟨by
        simp [isReorderEv, isUnmountEv, isResolveEv, List.takeWhile_cons,
          List.dropWhile_cons, List.countP_cons], by
        simp [isReorderEv, isUnmountEv, isResolveEv, List.takeWhile_cons,
          List.dropWhile_cons, List.countP_cons]⟩⟩
  · exact ⟨fun hc => ⟨hu, by
        simp [isReorderEv, isUnmountEv, isResolveEv, List.takeWhile_cons,
          List.dropWhile_cons, List.countP_cons]⟩,
      by simp [isReorderEv, isUnmountEv, isResolveEv, List.takeWhile_cons,
          List.dropWhile_cons, List.countP_cons],
      by simp [isReorderEv, isUnmountEv, isResolveEv, List.takeWhile_cons,
          List.dropWhile_cons, List.countP_cons],
      fun hm => ⟨by
        simp [isReorderEv, isUnmountEv, isResolveEv, List.takeWhile_cons,
          List.dropWhile_cons, List.countP_cons], by
        simp [isReorderEv, isUnmountEv, isResolveEv, List.takeWhile_cons,
          List.dropWhile_cons, List.countP_cons]⟩⟩

/-- Witness for C3: in a concrete full run the resolution happens exactly
once, before the unmount. -/
theorem claim_C3_witness :
    (sync_shokz false
        (Env.mk true true true true true true "/dev/disk4s1" true true
          true)).2.countP isResolveEv = 1 ∧
      Ev.resolve ∈ (sync_shokz false
        (Env.mk true true true true true true "/dev/disk4s1" true true
          true)).2.takeWhile (fun e => !isUnmountEv e) :=
  (claim_C3_ordering_invariant false
    (Env.mk true true true true true true "/dev/disk4s1" true true
      true)).2.2.2 (by decide)

end ShokzSync
